import Mathlib

/-!
Verification development for the "sync-excel" timesheet reconciliation
engine (`AzureFunctions/sync-excel/__init__.py`).

The Python source is shallowly embedded below.  Strings are modelled as
Lean `String`/`List Char` (cell values are modelled as the strings that
`str(v)` would produce), Python `None` as `Option`, Python floats as
exact rationals `ℚ`, raised exceptions as `Except String`.  Database
writes are modelled as an explicit list of `WriteRec` values returned by
the group resolver instead of performed against a cursor.
-/

namespace SyncExcel

/-- Python `\s` (ASCII range): the whitespace class used by `str.strip`,
`re` whitespace and `str.split`. -/
def pyWs (c : Char) : Bool :=
  c = ' ' || c = '\t' || c = '\n' || c = '\r' || c = '\x0b' || c = '\x0c'

/-- Python word character (`\w`, ASCII range), used for `\b` boundaries. -/
def wordCharB (c : Char) : Bool :=
  c.isAlphanum || c = '_'

/-- Embeds `str.strip()` on a character list. -/
def pyStripL (cs : List Char) : List Char :=
  ((cs.dropWhile pyWs).reverse.dropWhile pyWs).reverse

/-- Embeds `str.strip()` on a `String`. -/
def pyStrip (s : String) : String :=
  ⟨pyStripL s.data⟩

/-- Embeds `str.lower()` (ASCII behaviour suffices for the data handled here). -/
def lowerL (cs : List Char) : List Char :=
  cs.map Char.toLower

/-- Embeds `str.lower()` on a `String`. -/
def lowerStr (s : String) : String :=
  ⟨lowerL s.data⟩

/-- Truthiness of an optional string (`None` and `''` are falsy). -/
def pyTruthy (v : Option String) : Bool :=
  match v with
  | some s => s ≠ ""
  | none => false

/-- Decimal digit value of a character, if it is a digit. -/
def digitVal (c : Char) : Option Nat :=
  if c.isDigit then some (c.toNat - 48) else none

/-- Fold a digit list into a natural number. -/
def digitsToNat (cs : List Char) : Nat :=
  cs.foldl (fun acc c => 10 * acc + (c.toNat - 48)) 0

/-- Python `float(s)` on the decimal literals this program feeds it:
optional sign, digits with an optional single decimal point (at least
one digit overall).  Exponent and special forms never occur in the
timesheet data and are treated as unparseable. -/
def parseFloat (s : String) : Option ℚ :=
  let cs := pyStripL s.data
  let (sign, cs) : ℚ × List Char :=
    match cs with
    | '-' :: rest => (-1, rest)
    | '+' :: rest => (1, rest)
    | rest => (1, rest)
  let intPart := cs.takeWhile Char.isDigit
  let rest := cs.dropWhile Char.isDigit
  match rest with
  | [] => if intPart.isEmpty then none else some (sign * digitsToNat intPart)
  | '.' :: frac =>
      if frac.all Char.isDigit ∧ ¬(intPart.isEmpty ∧ frac.isEmpty) then
        some (sign * ((digitsToNat intPart * 10 ^ frac.length + digitsToNat frac : ℚ)
          / (10 ^ frac.length : ℚ)))
      else none
  | _ => none

/-- Embeds `float(s)` as the program observes it: a `ValueError` becomes an
`Except.error` carrying the CPython message. -/
def parseFloatE (s : String) : Except String ℚ :=
  match parseFloat s with
  | some q => Except.ok q
  | none => Except.error ("could not convert string to float: " ++ s)

-- ── Date parsing (`_parse_date`) ─────────────────────────────────────────────

/-- A parsed calendar date (what a successful `datetime.strptime` yields,
restricted to its year/month/day components, the only ones read). -/
structure PDate where
  year : Nat
  month : Nat
  day : Nat
deriving DecidableEq, Repr

/-- Candidate matches for strptime `%d` (regex `3[01]|[12]\d|0[1-9]|[1-9]`)
at the head of the input, in regex backtracking order: two-digit
alternatives first, then the single-digit one.  Each candidate carries
the remaining input. -/
def dayCands : List Char → List (Nat × List Char)
  | c1 :: c2 :: rest =>
      match digitVal c1, digitVal c2 with
      | some d1, some d2 =>
          (if (d1 = 3 ∧ d2 ≤ 1) ∨ d1 = 1 ∨ d1 = 2 ∨ (d1 = 0 ∧ 1 ≤ d2) then
            [(10 * d1 + d2, rest)] else [])
          ++ (if 1 ≤ d1 then [(d1, c2 :: rest)] else [])
      | some d1, none => if 1 ≤ d1 then [(d1, c2 :: rest)] else []
      | none, _ => []
  | [c1] =>
      match digitVal c1 with
      | some d1 => if 1 ≤ d1 then [(d1, [])] else []
      | none => []
  | [] => []

/-- Candidate matches for strptime `%m` (regex `1[0-2]|0[1-9]|[1-9]`), in
backtracking order. -/
def monthCands : List Char → List (Nat × List Char)
  | c1 :: c2 :: rest =>
      match digitVal c1, digitVal c2 with
      | some d1, some d2 =>
          (if (d1 = 1 ∧ d2 ≤ 2) ∨ (d1 = 0 ∧ 1 ≤ d2) then
            [(10 * d1 + d2, rest)] else [])
          ++ (if 1 ≤ d1 then [(d1, c2 :: rest)] else [])
      | some d1, none => if 1 ≤ d1 then [(d1, c2 :: rest)] else []
      | none, _ => []
  | [c1] =>
      match digitVal c1 with
      | some d1 => if 1 ≤ d1 then [(d1, [])] else []
      | none => []
  | [] => []

/-- strptime `%Y`: exactly four digits, which must exhaust the input
(strptime requires the whole string to be consumed). -/
def year4 : List Char → Option Nat
  | [a, b, c, d] => do
      let da ← digitVal a
      let db ← digitVal b
      let dc ← digitVal c
      let dd ← digitVal d
      pure (1000 * da + 100 * db + 10 * dc + dd)
  | _ => none

def isLeap (y : Nat) : Bool :=
  y % 4 = 0 && (y % 100 ≠ 0 || y % 400 = 0)

def daysInMonth (y m : Nat) : Nat :=
  if m = 2 then (if isLeap y then 29 else 28)
  else if m = 4 ∨ m = 6 ∨ m = 9 ∨ m = 11 then 30
  else 31

/-- Embeds `datetime` constructor validity (month is already 1..12 by the `%m`
pattern; year must be ≥ 1, day within the month). -/
def validDate (y m d : Nat) : Bool :=
  1 ≤ y && 1 ≤ d && d ≤ daysInMonth y m

/-- First complete regex match of `%d SEP %m SEP %Y` over the input, in
backtracking order, before `datetime` validity is checked. -/
def matchDMYRaw (sep : Char) (cs : List Char) : Option (Nat × Nat × Nat) :=
  (dayCands cs).findSome? fun dc =>
    match dc.2 with
    | s1 :: r2 =>
        if s1 = sep then
          (monthCands r2).findSome? fun mc =>
            match mc.2 with
            | s2 :: r4 =>
                if s2 = sep then
                  match year4 r4 with
                  | some y => some (dc.1, mc.1, y)
                  | none => none
                else none
            | [] => none
        else none
    | [] => none

/-- One `datetime.strptime(s, '%d SEP %m SEP %Y')` attempt: the regex
commits to its first complete match; an out-of-range date then raises
(modelled as `none`), without retrying other regex paths. -/
def matchDMY (sep : Char) (cs : List Char) : Option PDate :=
  match matchDMYRaw sep cs with
  | some (d, m, y) => if validDate y m d then some ⟨y, m, d⟩ else none
  | none => none

/-- Embeds `_parse_date` on a string value: `s = str(val).strip()`, then
`datetime.strptime(s[:10], fmt)` for `fmt` in `('%d/%m/%Y', '%d-%m-%Y')`,
returning the first success.  (The source also passes through values
that are already date/datetime objects; every call site in this module
hands it a string, so that branch is dead here.) -/
def parseDate (s : String) : Option PDate :=
  let cs := (pyStripL s.data).take 10
  match matchDMY '/' cs with
  | some d => some d
  | none => matchDMY '-' cs

-- ── Name normalisation (`_normalise`, `_tokenise`) ───────────────────────────

/-- One atom of the honorific/suffix regex patterns: a literal character
or an optional dot (`\.?`). -/
inductive RAtom where
  | lit (c : Char)
  | optDot
deriving DecidableEq, Repr

/-- Alternatives of the honorific pattern
`\b(mr\.?|mrs\.?|ms\.?|dr\.?|prof\.?)\b` (case handled by prior
lowering), in the regex alternation order. -/
def titleAlts : List (List RAtom) :=
  [[.lit 'm', .lit 'r', .optDot],
   [.lit 'm', .lit 'r', .lit 's', .optDot],
   [.lit 'm', .lit 's', .optDot],
   [.lit 'd', .lit 'r', .optDot],
   [.lit 'p', .lit 'r', .lit 'o', .lit 'f', .optDot]]

/-- Alternatives of the suffix pattern
`\b(jr\.?|sr\.?|ii|iii|iv|ph\.?d\.?|md|esq\.?|cpa)\b`, in order. -/
def nameSuffixAlts : List (List RAtom) :=
  [[.lit 'j', .lit 'r', .optDot],
   [.lit 's', .lit 'r', .optDot],
   [.lit 'i', .lit 'i'],
   [.lit 'i', .lit 'i', .lit 'i'],
   [.lit 'i', .lit 'v'],
   [.lit 'p', .lit 'h', .optDot, .lit 'd', .optDot],
   [.lit 'm', .lit 'd'],
   [.lit 'e', .lit 's', .lit 'q', .optDot],
   [.lit 'c', .lit 'p', .lit 'a']]

/-- Match one pattern alternative at the head of the input.  Returns the
possible `(last consumed char, remainder)` pairs in regex backtracking
preference order (greedy: each optional dot consumed before skipped). -/
def matchAtoms : List RAtom → Char → List Char → List (Char × List Char)
  | [], lastC, rest => [(lastC, rest)]
  | .lit c :: as, _, x :: xs => if x = c then matchAtoms as c xs else []
  | .lit _ :: _, _, [] => []
  | .optDot :: as, lastC, xs =>
      (match xs with
       | x :: xs2 => if x = '.' then matchAtoms as '.' xs2 else []
       | [] => []) ++ matchAtoms as lastC xs

/-- Embeds `\b` test at the junction after a match: the last consumed character
and the next character must differ in word-ness (end of string is
non-word). -/
def boundaryAfter (lastC : Char) (rest : List Char) : Bool :=
  wordCharB lastC != (match rest with | [] => false | c :: _ => wordCharB c)

/-- Try the alternatives at the current position, in order; within one
alternative, the first backtracking candidate whose trailing `\b`
succeeds wins (the leading `\b` is checked by the caller). -/
def tryAlts (alts : List (List RAtom)) (s : List Char) : Option (Char × List Char) :=
  alts.findSome? fun alt =>
    (matchAtoms alt ' ' s).find? fun cand => boundaryAfter cand.1 cand.2

/-- Embeds `re.sub(pattern, '', s)` for the word-bounded patterns above:
left-to-right scan deleting non-overlapping leftmost matches.  `prevW`
is the word-ness of the character before the current position (the
leading `\b`: all alternatives start with a letter, so a match needs the
previous character to be non-word).  `fuel` bounds the recursion; every
step consumes at least one character, so `fuel = length` suffices. -/
def subWordsGo (alts : List (List RAtom)) : Nat → Bool → List Char → List Char
  | 0, _, s => s
  | _ + 1, _, [] => []
  | n + 1, prevW, c :: cs =>
      if prevW then c :: subWordsGo alts n (wordCharB c) cs
      else
        match tryAlts alts (c :: cs) with
        | some (lastC, rest) => subWordsGo alts n (wordCharB lastC) rest
        | none => c :: subWordsGo alts n (wordCharB c) cs

def subWords (alts : List (List RAtom)) (s : List Char) : List Char :=
  subWordsGo alts s.length false s

/-- The hyphen/apostrophe character class replaced by a space in
`_normalise`: hyphen, straight apostrophe (39), the four curly
quote variants (U+2018, U+2019, U+201A, U+201B) and the grave
accent (0x60); characters are given by code point. -/
def dashQuoteChar (c : Char) : Bool :=
  c = '-' || c = Char.ofNat 39 || c = Char.ofNat 0x2018 || c = Char.ofNat 0x2019
    || c = Char.ofNat 0x201a || c = Char.ofNat 0x201b || c = Char.ofNat 0x60

/-- The class kept by `re.sub(r'[^a-z\s]', '', s)`. -/
def keepChar (c : Char) : Bool :=
  (decide ('a' ≤ c) && decide (c ≤ 'z')) || pyWs c

/-- Embeds `re.sub(r'\s+', ' ', s)`: collapse each maximal whitespace run into a
single space. -/
def collapseWsGo : Bool → List Char → List Char
  | _, [] => []
  | inWs, c :: cs =>
      if pyWs c then
        if inWs then collapseWsGo true cs else ' ' :: collapseWsGo true cs
      else c :: collapseWsGo false cs

def collapseWs (cs : List Char) : List Char :=
  collapseWsGo false cs

/-- Embeds `_normalise(name)`: lower-case; strip honorifics then suffixes
(word-boundary regex removal); map hyphen/apostrophe variants to
spaces; drop everything outside `[a-z\s]`; collapse whitespace; strip.
`None` is treated as `''` (the source's `(name or '')`). -/
def normaliseL (name : Option String) : List Char :=
  let s0 := lowerL (name.getD "").data
  let s1 := subWords titleAlts s0
  let s2 := subWords nameSuffixAlts s1
  let s3 := s2.map fun c => if dashQuoteChar c then ' ' else c
  let s4 := s3.filter keepChar
  pyStripL (collapseWs s4)

/-- Embeds `str.split()` (no separator): split on whitespace runs, dropping
empty pieces.  `acc` holds the current word, reversed. -/
def splitWsAux : List Char → List Char → List (List Char)
  | acc, [] => if acc.isEmpty then [] else [acc.reverse]
  | acc, c :: cs =>
      if pyWs c then
        if acc.isEmpty then splitWsAux [] cs
        else acc.reverse :: splitWsAux [] cs
      else splitWsAux (c :: acc) cs

def splitWs (cs : List Char) : List (List Char) :=
  splitWsAux [] cs

/-- Embeds `MIN_TOKEN_LEN` from the source. -/
def MIN_TOKEN_LEN : Nat := 2

/-- Embeds `_tokenise(name)`: split the normalised name on whitespace and keep
tokens of length ≥ `MIN_TOKEN_LEN`. -/
def tokeniseL (name : Option String) : List (List Char) :=
  (splitWs (normaliseL name)).filter fun t => MIN_TOKEN_LEN ≤ t.length

-- ── Word-boundary token search (`_any_token_in`) ─────────────────────────────

/-- Embeds `\b` at a position: word-ness on the two sides differs (`prevW` is
the word-ness of the preceding character, out-of-range is non-word). -/
def boundaryAt (prevW : Bool) (s : List Char) : Bool :=
  prevW != (match s with | [] => false | c :: _ => wordCharB c)

/-- Does `\b t \b` (with `t` literal) match exactly at this position? -/
def matchHereWB (t : List Char) (prevW : Bool) (s : List Char) : Bool :=
  t.isPrefixOf s && boundaryAt prevW s &&
    (match t.getLast? with
     | some lc => boundaryAt (wordCharB lc) (s.drop t.length)
     | none => boundaryAt prevW s)

def searchWBGo (t : List Char) (prevW : Bool) : List Char → Bool
  | [] => matchHereWB t prevW []
  | c :: cs => matchHereWB t prevW (c :: cs) || searchWBGo t (wordCharB c) cs

/-- Embeds `re.search(r'\b' + re.escape(t) + r'\b', s)` as a Boolean. -/
def searchWB (t s : List Char) : Bool :=
  searchWBGo t false s

/-- Embeds `_any_token_in(tokens, normed_db)`. -/
def anyTokenIn (tokens : List (List Char)) (db : List Char) : Bool :=
  tokens.any fun t => searchWB t db

-- ── Data model ───────────────────────────────────────────────────────────────

/-- One spreadsheet row: the mapping produced by `_parse_excel` from
lower-cased header to cell value.  A cell is `none` for Python `None`;
otherwise it is modelled as the string `str(v)` would produce (which is
all `_get_col` ever observes). -/
abbrev Row := List (String × Option String)

/-- One record of the pending-invoice pool, as selected by the run's
initial query.  `vendor_hours` is numeric in the store and modelled as
an exact rational.  `start_date`/`end_date` are modelled as the strings
`str(val)` yields, `none` for SQL NULL.  The queried dimension columns
(`division`, `client_name`, `project_name_excel`) are never read by the
resolver and are omitted. -/
structure Invoice where
  invoice_id : String
  resource_name : Option String
  start_date : Option String
  end_date : Option String
  vendor_hours : Option ℚ
  approval_status : Option String
deriving DecidableEq, Repr

/-- Embeds `_get_col(row, col_name)`: first pair whose key lower-cases to the
(lower-cased) requested name and whose value is not `None`; the value is
returned stripped, `''` when absent. -/
def getCol (row : Row) (col : String) : String :=
  match row.find? (fun kv => lowerStr kv.1 = lowerStr col && kv.2.isSome) with
  | some kv => pyStrip (kv.2.getD "")
  | none => ""

/-- Embeds `_first_val(group, col_name)`: first non-empty value of the column
across the group, `None` if every row lacks it. -/
def firstVal (group : List Row) (col : String) : Option String :=
  group.findSome? fun r =>
    let v := getCol r col
    if v = "" then none else some v

-- ── Date extraction (`_extract_month_year`) ──────────────────────────────────

/-- The candidate date columns, in the order `_extract_month_year` tries
them (`COL_FROM`, `COL_DATE`, then the literals). -/
def dateCols : List String :=
  ["from time", "date", "to time", "pay period start", "period"]

/-- One column's contribution: a non-empty value that parses yields its
(year, month); an empty or unparseable value yields nothing and the scan
moves on. -/
def colMonthYear (row : Row) (col : String) : Option (Nat × Nat) :=
  let v := getCol row col
  if v = "" then none
  else (parseDate v).map fun d => (d.year, d.month)

/-- Embeds `_extract_month_year(row)`: first column whose value parses wins;
`none` models the `(None, None)` result. -/
def extractMonthYear (row : Row) : Option (Nat × Nat) :=
  dateCols.findSome? (colMonthYear row)

-- ── Invoice matching (`_match_invoice`) ──────────────────────────────────────

inductive MatchStatus where
  | matched
  | needApproval
  | ambiguous
  | unmatched
deriving DecidableEq, Repr

/-- Pass-1 qualification: the candidate's normalised name is non-empty
(truthiness of the walrus binding) and some first-name token AND some
last-name token occur word-bounded in it. -/
def pass1Q (ft lt : List (List Char)) (inv : Invoice) : Bool :=
  let db := normaliseL inv.resource_name
  !db.isEmpty && anyTokenIn ft db && anyTokenIn lt db

/-- Pass-2 qualification: non-empty normalised name and some first-name
token OR some last-name token occurs in it. -/
def pass2Q (ft lt : List (List Char)) (inv : Invoice) : Bool :=
  let db := normaliseL inv.resource_name
  !db.isEmpty && (anyTokenIn ft db || anyTokenIn lt db)

/-- Embeds `_match_invoice(first, last, invoices)`.  (In the source the walrus
`inv['resource_name'] or ''` feeds `_normalise`, whose own
`(name or '')` makes the two spellings coincide; `normaliseL` takes the
optional field directly.) -/
def matchInvoice (first last : String) (invoices : List Invoice) :
    Option Invoice × MatchStatus :=
  let ft := tokeniseL (some first)
  let lt := tokeniseL (some last)
  let full := invoices.filter (pass1Q ft lt)
  if full.length = 1 then (full.head?, .matched)
  else if 1 < full.length then (none, .ambiguous)
  else
    let part := invoices.filter (pass2Q ft lt)
    if part.length = 1 then (part.head?, .needApproval)
    else if 1 < part.length then (none, .ambiguous)
    else (none, .unmatched)

-- ── Pay-period check (`_pay_period_matches`) ─────────────────────────────────

/-- Does this stored date value place the invoice in (year, month)?  The
value must be truthy and `_parse_date(str(val))` must succeed with that
year and month. -/
def dateFallsIn (v : Option String) (year month : Nat) : Bool :=
  pyTruthy v &&
    (match parseDate (v.getD "") with
     | some d => decide (d.year = year) && decide (d.month = month)
     | none => false)

/-- Embeds `_pay_period_matches(invoice, year, month)`: year 0 is the "no date
in timesheet" sentinel and skips the check; otherwise either stored date
must fall in the month. -/
def payPeriodMatches (inv : Invoice) (year month : Nat) : Bool :=
  if year = 0 then true
  else dateFallsIn inv.start_date year month || dateFallsIn inv.end_date year month

-- ── Group resolution (`_process_group`, `_write_update`) ─────────────────────

inductive OutcomeStatus where
  | MATCHED
  | NEED_APPROVAL
  | PENDING
  | SKIPPED_NOT_PENDING
  | PERIOD_MISMATCH
  | UNMATCHED
  | AMBIGUOUS
deriving DecidableEq, Repr

/-- The decision-bearing part of the per-group result dict (the
reporting-only fields `excel_name`, `year`, `month`, `row_count`,
`db_status`, `matched_to`, `invoice_period_start` are omitted). -/
structure Outcome where
  status : OutcomeStatus
  invoice_id : Option String
  approved_hours : Option ℚ
  vendor_hours : Option ℚ
  new_db_status : Option String
deriving DecidableEq, Repr

/-- A value bound into the dynamic UPDATE. -/
inductive FieldVal where
  | num (q : ℚ)
  | str (s : String)
deriving DecidableEq, Repr

/-- One executed `UPDATE invoices SET ... , excel_updated_at = NOW()
WHERE invoice_id = ...` statement (the timestamp column is set by every
executed update and is left implicit). -/
structure WriteRec where
  invoice_id : String
  fields : List (String × FieldVal)
deriving DecidableEq, Repr

/-- Embeds `_write_update(cursor, conn, invoice_id, fields)`: drop `None`
values; if nothing remains, return without executing anything (no
timestamp either); otherwise execute one UPDATE over the remaining
fields. -/
def writeUpdate (invoice_id : String) (fields : List (String × Option FieldVal)) :
    List WriteRec :=
  let fs := fields.filterMap fun kv => kv.2.map fun v => (kv.1, v)
  if fs.isEmpty then [] else [⟨invoice_id, fs⟩]

/-- Embeds `(_get_col(r, COL_APPROVAL) or '').strip().lower()` for one row. -/
def approvalVal (r : Row) : String :=
  ⟨lowerL (pyStripL (getCol r "approval status").data)⟩

def allApproved (group : List Row) : Bool :=
  (group.map approvalVal).all fun v => v == "approved"

def hasApproved (group : List Row) : Bool :=
  (group.map approvalVal).any fun v => v == "approved"

def hasNonApproved (group : List Row) : Bool :=
  (group.map approvalVal).any fun v => !(v == "approved")

/-- Embeds `float(_get_col(r, COL_HOURS) or _get_col(r, 'hours') or 0)`:
Python `or` takes the first truthy (non-empty) alternative; `float` of a
malformed string raises. -/
def rowHours (r : Row) : Except String ℚ :=
  let a := getCol r "hour(s)"
  let b := getCol r "hours"
  if a ≠ "" then parseFloatE a
  else if b ≠ "" then parseFloatE b
  else Except.ok 0

/-- Embeds `sum(float(...) for r in group)`: the generator stops at the first
exception. -/
def totalHours (group : List Row) : Except String ℚ := do
  let hs ← group.mapM rowHours
  pure (hs.foldl (· + ·) 0)

/-- Embeds `(inv.get('approval_status') or '').strip().lower()`. -/
def statusNorm (inv : Invoice) : String :=
  ⟨lowerL (pyStripL (inv.approval_status.getD "").data)⟩

/-- The body of `_process_group` after a usable match: the not-pending
guard, the pay-period check, approval aggregation and the conditional
write.  Returns the outcome together with the updates executed. -/
def resolveGroup (inv : Invoice) (yr mo : Nat) (group : List Row) :
    Except String (Outcome × List WriteRec) :=
  if statusNorm inv ≠ "pending" then
    .ok (⟨.SKIPPED_NOT_PENDING, some inv.invoice_id, none, none, none⟩, [])
  else if !payPeriodMatches inv yr mo then
    .ok (⟨.PERIOD_MISMATCH, some inv.invoice_id, none, none, none⟩, [])
  else
    let division := firstVal group "division"
    let client_name := firstVal group "client name"
    let project := firstVal group "project name"
    if allApproved group then
      match totalHours group with
      | .error e => .error e
      | .ok total =>
          let vendor := inv.vendor_hours.getD 0
          let newStatus : String :=
            if |total - vendor| < (1 : ℚ) / 100 then "Complete" else "Need Approval"
          .ok (⟨.MATCHED, some inv.invoice_id, some total, some vendor, some newStatus⟩,
            writeUpdate inv.invoice_id
              [("approved_hours", some (.num total)),
               ("approval_status", some (.str newStatus)),
               ("division", division.map .str),
               ("client_name", client_name.map .str),
               ("project_name_excel", project.map .str)])
    else if hasApproved group && hasNonApproved group then
      .ok (⟨.NEED_APPROVAL, some inv.invoice_id, none, none, some "Need Approval"⟩,
        writeUpdate inv.invoice_id
          [("approval_status", some (.str "Need Approval")),
           ("division", division.map .str),
           ("client_name", client_name.map .str),
           ("project_name_excel", project.map .str)])
    else
      .ok (⟨.PENDING, some inv.invoice_id, none, none, none⟩,
        writeUpdate inv.invoice_id
          [("division", division.map .str),
           ("client_name", client_name.map .str),
           ("project_name_excel", project.map .str)])

/-- Embeds `_process_group(first, last, yr, mo, group, invoices, ...)`.  The
unmatched/ambiguous early returns carry no invoice identifier and
trigger no write.  A `None` invoice alongside a usable status would
raise an `AttributeError` in the source (it cannot arise from
`_match_invoice`); it is modelled as an error. -/
def processGroup (first last : String) (yr mo : Nat) (group : List Row)
    (invoices : List Invoice) : Except String (Outcome × List WriteRec) :=
  match matchInvoice first last invoices with
  | (_, .unmatched) => .ok (⟨.UNMATCHED, none, none, none, none⟩, [])
  | (_, .ambiguous) => .ok (⟨.AMBIGUOUS, none, none, none, none⟩, [])
  | (none, .matched) => .error "NoneType object has no attribute get"
  | (none, .needApproval) => .error "NoneType object has no attribute get"
  | (some inv, .matched) => resolveGroup inv yr mo group
  | (some inv, .needApproval) => resolveGroup inv yr mo group

-- ── The batch loop of `main` ─────────────────────────────────────────────────

/-- One entry of `groups.items()`: the normalised name pair, the period
key and the rows. -/
structure GroupEntry where
  first : String
  last : String
  yr : Nat
  mo : Nat
  rows : List Row
deriving Repr

def processEntry (invoices : List Invoice) (g : GroupEntry) :
    Except String (Outcome × List WriteRec) :=
  processGroup g.first g.last g.yr g.mo g.rows invoices

/-- The `for (first, last, yr, mo), group in groups.items()` loop of
`main`, step 6: it runs inside the single `try` of steps 4–6, so any
exception raised while processing one group aborts the loop and reaches
the `except` that turns the whole run into a 500 error response (the
collected results are discarded). -/
def runGroups (invoices : List Invoice) : List GroupEntry → Except String (List Outcome)
  | [] => .ok []
  | g :: rest => do
      let (o, _) ← processEntry invoices g
      let os ← runGroups invoices rest
      pure (o :: os)

-- ── Helper lemmas ────────────────────────────────────────────────────────────

theorem mem_pyStripL {c : Char} {l : List Char} (h : c ∈ pyStripL l) : c ∈ l := by
  unfold pyStripL at h
  rw [List.mem_reverse] at h
  have h2 := (List.dropWhile_sublist pyWs).mem h
  rw [List.mem_reverse] at h2
  exact (List.dropWhile_sublist pyWs).mem h2

theorem mem_collapseWsGo {c : Char} {l : List Char} :
    ∀ {b : Bool}, c ∈ collapseWsGo b l → c = ' ' ∨ c ∈ l := by
  induction l with
  | nil => intro b h; simp [collapseWsGo] at h
  | cons d ds ih =>
      intro b h
      unfold collapseWsGo at h
      by_cases hd : pyWs d = true
      · rw [if_pos hd] at h
        cases b with
        | true =>
            rcases ih (b := true) (by simpa using h) with h1 | h1
            · exact Or.inl h1
            · exact Or.inr (List.mem_cons_of_mem _ h1)
        | false =>
            rw [if_neg (by simp)] at h
            rcases List.mem_cons.mp h with h1 | h1
            · exact Or.inl h1
            · rcases ih (b := true) h1 with h2 | h2
              · exact Or.inl h2
              · exact Or.inr (List.mem_cons_of_mem _ h2)
      · rw [if_neg hd] at h
        rcases List.mem_cons.mp h with h1 | h1
        · exact Or.inr (h1 ▸ List.mem_cons_self _ _)
        · rcases ih (b := false) h1 with h2 | h2
          · exact Or.inl h2
          · exact Or.inr (List.mem_cons_of_mem _ h2)

theorem splitWsAux_chars {c : Char} :
    ∀ (l acc : List Char), (∀ a ∈ acc, pyWs a = false) →
      ∀ w ∈ splitWsAux acc l, c ∈ w → (c ∈ acc ∨ c ∈ l) ∧ pyWs c = false := by
  intro l
  induction l with
  | nil =>
      intro acc hacc w hw hc
      unfold splitWsAux at hw
      by_cases he : acc.isEmpty
      · rw [if_pos he] at hw; simp at hw
      · rw [if_neg he] at hw
        rcases List.mem_singleton.mp hw with rfl
        rw [List.mem_reverse] at hc
        exact ⟨Or.inl hc, hacc c hc⟩
  | cons d ds ih =>
      intro acc hacc w hw hc
      unfold splitWsAux at hw
      by_cases hd : pyWs d = true
      · rw [if_pos hd] at hw
        by_cases he : acc.isEmpty
        · rw [if_pos he] at hw
          have := ih [] (by simp) w hw hc
          rcases this with ⟨h1 | h1, h2⟩
          · simp at h1
          · exact ⟨Or.inr (List.mem_cons_of_mem _ h1), h2⟩
        · rw [if_neg he] at hw
          rcases List.mem_cons.mp hw with rfl | hw2
          · rw [List.mem_reverse] at hc
            exact ⟨Or.inl hc, hacc c hc⟩
          · have := ih [] (by simp) w hw2 hc
            rcases this with ⟨h1 | h1, h2⟩
            · simp at h1
            · exact ⟨Or.inr (List.mem_cons_of_mem _ h1), h2⟩
      · rw [if_neg hd] at hw
        have hacc2 : ∀ a ∈ d :: acc, pyWs a = false := by
          intro a ha
          rcases List.mem_cons.mp ha with rfl | ha2
          · simpa using hd
          · exact hacc a ha2
        have := ih (d :: acc) hacc2 w hw hc
        rcases this with ⟨h1 | h1, h2⟩
        · rcases List.mem_cons.mp h1 with rfl | h3
          · exact ⟨Or.inr (List.mem_cons_self _ _), h2⟩
          · exact ⟨Or.inl h3, h2⟩
        · exact ⟨Or.inr (List.mem_cons_of_mem _ h1), h2⟩

/-- Every character of a normalised name survives the
`[^a-z\s]` filter. -/
theorem normaliseL_chars {c : Char} {n : Option String} (h : c ∈ normaliseL n) :
    keepChar c = true := by
  unfold normaliseL at h
  have h1 := mem_pyStripL h
  rcases mem_collapseWsGo h1 with h2 | h2
  · subst h2; simp [keepChar, pyWs]
  · exact List.of_mem_filter h2

-- ── C9 ───────────────────────────────────────────────────────────────────────

/-- C9: for every input name (including `None`), every token produced by
`_tokenise` (i.e. `tokenize(normalize(N))`) has length at least 2 and
consists only of lowercase `a`–`z` characters (hence contains no
punctuation and nothing outside that range). -/
theorem claim9_tokens (n : Option String) :
    ∀ t ∈ tokeniseL n, MIN_TOKEN_LEN ≤ t.length ∧ ∀ c ∈ t, 'a' ≤ c ∧ c ≤ 'z' := by
  intro t ht
  unfold tokeniseL at ht
  rw [List.mem_filter] at ht
  obtain ⟨hmem, hlen⟩ := ht
  refine ⟨by simpa using hlen, ?_⟩
  intro c hc
  have h1 := splitWsAux_chars (c := c) (normaliseL n) [] (by simp) t hmem hc
  rcases h1 with ⟨h2 | h2, hws⟩
  · simp at h2
  · have h3 := normaliseL_chars h2
    unfold keepChar at h3
    rw [Bool.or_eq_true, Bool.and_eq_true] at h3
    rcases h3 with ⟨h4, h5⟩ | h4
    · exact ⟨of_decide_eq_true h4, of_decide_eq_true h5⟩
    · rw [hws] at h4; cases h4

/-- Witness for C9 at a concrete honorific-laden input. -/
theorem claim9_tokens_witness :
    (['a', 'n', 'n', 'a'] ∈ tokeniseL (some "Dr. Anna-Maria Jones Jr.")) ∧
      (MIN_TOKEN_LEN ≤ (['a', 'n', 'n', 'a'] : List Char).length ∧
        ∀ c ∈ (['a', 'n', 'n', 'a'] : List Char), 'a' ≤ c ∧ c ≤ 'z') :=
  ⟨by decide, claim9_tokens (some "Dr. Anna-Maria Jones Jr.") ['a', 'n', 'n', 'a'] (by decide)⟩

-- ── C7 ───────────────────────────────────────────────────────────────────────

/-- C7: matching is monotonic in commitment — any candidate qualifying
under Pass 1 (full match) also qualifies under Pass 2 (partial match),
so the full-match candidate set is a subset of the partial-match
candidate set. -/
theorem claim7_monotonic_commitment (ft lt : List (List Char)) (invoices : List Invoice) :
    (∀ inv, pass1Q ft lt inv = true → pass2Q ft lt inv = true) ∧
      invoices.filter (pass1Q ft lt) ⊆ invoices.filter (pass2Q ft lt) := by
  have himp : ∀ inv, pass1Q ft lt inv = true → pass2Q ft lt inv = true := by
    intro inv h
    simp only [pass1Q, Bool.and_eq_true] at h
    simp only [pass2Q, Bool.and_eq_true, Bool.or_eq_true]
    exact ⟨h.1.1, Or.inl h.1.2⟩
  refine ⟨himp, ?_⟩
  intro j hj
  rw [List.mem_filter] at hj ⊢
  exact ⟨hj.1, himp j hj.2⟩

/-- Witness for C7: a concrete fully-matching candidate also passes the
partial test. -/
theorem claim7_monotonic_commitment_witness :
    pass2Q [['j', 'a', 'n', 'e']] [['d', 'o', 'e']]
      ⟨"w1", some "Doe, Jane Marie", none, none, some 40, some "Pending"⟩ = true :=
  (claim7_monotonic_commitment [['j', 'a', 'n', 'e']] [['d', 'o', 'e']] []).1
    ⟨"w1", some "Doe, Jane Marie", none, none, some 40, some "Pending"⟩ (by decide)

-- ── Branch lemmas for the resolver ───────────────────────────────────────────

theorem processGroup_eq_resolve {first last : String} {yr mo : Nat} {group : List Row}
    {invoices : List Invoice} {inv : Invoice}
    (hmatch : matchInvoice first last invoices = (some inv, .matched)) :
    processGroup first last yr mo group invoices = resolveGroup inv yr mo group := by
  unfold processGroup
  rw [hmatch]

theorem resolveGroup_skipped {inv : Invoice} {yr mo : Nat} {group : List Row}
    (hpend : statusNorm inv ≠ "pending") :
    resolveGroup inv yr mo group =
      .ok (⟨.SKIPPED_NOT_PENDING, some inv.invoice_id, none, none, none⟩, []) := by
  unfold resolveGroup
  rw [if_pos hpend]

theorem resolveGroup_mismatch {inv : Invoice} {yr mo : Nat} {group : List Row}
    (hpend : statusNorm inv = "pending") (hper : payPeriodMatches inv yr mo = false) :
    resolveGroup inv yr mo group =
      .ok (⟨.PERIOD_MISMATCH, some inv.invoice_id, none, none, none⟩, []) := by
  unfold resolveGroup
  rw [if_neg (by simp [hpend]), if_pos (by simp [hper])]

theorem resolveGroup_allApproved {inv : Invoice} {yr mo : Nat} {group : List Row} {T : ℚ}
    (hpend : statusNorm inv = "pending") (hper : payPeriodMatches inv yr mo = true)
    (hall : allApproved group = true) (htot : totalHours group = .ok T) :
    resolveGroup inv yr mo group =
      .ok (⟨.MATCHED, some inv.invoice_id, some T, some (inv.vendor_hours.getD 0),
            some (if |T - inv.vendor_hours.getD 0| < (1 : ℚ) / 100 then "Complete"
              else "Need Approval")⟩,
        writeUpdate inv.invoice_id
          [("approved_hours", some (.num T)),
           ("approval_status", some (.str (if |T - inv.vendor_hours.getD 0| < (1 : ℚ) / 100
              then "Complete" else "Need Approval"))),
           ("division", (firstVal group "division").map .str),
           ("client_name", (firstVal group "client name").map .str),
           ("project_name_excel", (firstVal group "project name").map .str)]) := by
  unfold resolveGroup
  rw [if_neg (by simp [hpend]), if_neg (by simp [hper]), if_pos hall, htot]

theorem resolveGroup_mixed {inv : Invoice} {yr mo : Nat} {group : List Row}
    (hpend : statusNorm inv = "pending") (hper : payPeriodMatches inv yr mo = true)
    (hall : allApproved group = false) (hA : hasApproved group = true)
    (hN : hasNonApproved group = true) :
    resolveGroup inv yr mo group =
      .ok (⟨.NEED_APPROVAL, some inv.invoice_id, none, none, some "Need Approval"⟩,
        writeUpdate inv.invoice_id
          [("approval_status", some (.str "Need Approval")),
           ("division", (firstVal group "division").map .str),
           ("client_name", (firstVal group "client name").map .str),
           ("project_name_excel", (firstVal group "project name").map .str)]) := by
  unfold resolveGroup
  rw [if_neg (by simp [hpend]), if_neg (by simp [hper]), if_neg (by simp [hall]),
    if_pos (by simp [hA, hN])]

theorem resolveGroup_nonePending {inv : Invoice} {yr mo : Nat} {group : List Row}
    (hpend : statusNorm inv = "pending") (hper : payPeriodMatches inv yr mo = true)
    (hall : allApproved group = false) (hno : (hasApproved group && hasNonApproved group) = false) :
    resolveGroup inv yr mo group =
      .ok (⟨.PENDING, some inv.invoice_id, none, none, none⟩,
        writeUpdate inv.invoice_id
          [("division", (firstVal group "division").map .str),
           ("client_name", (firstVal group "client name").map .str),
           ("project_name_excel", (firstVal group "project name").map .str)]) := by
  unfold resolveGroup
  rw [if_neg (by simp [hpend]), if_neg (by simp [hper]), if_neg (by simp [hall]),
    if_neg (by simp [hno])]

theorem allApproved_false_of_hasNon {group : List Row}
    (h : hasNonApproved group = true) : allApproved group = false := by
  refine Bool.eq_false_iff.mpr fun hall => ?_
  rcases List.any_eq_true.mp h with ⟨v, hv, hne⟩
  have h2 := List.all_eq_true.mp hall v hv
  simp only [beq_iff_eq] at h2
  simp [h2] at hne

theorem allApproved_false_of_none {group : List Row}
    (hne : group ≠ []) (h : hasApproved group = false) : allApproved group = false := by
  unfold allApproved
  unfold hasApproved at h
  cases group with
  | nil => exact absurd rfl hne
  | cons r g =>
      simp only [List.map_cons, List.any_cons, Bool.or_eq_false_iff] at h
      simp only [List.map_cons, List.all_cons, h.1, Bool.false_and]

/-- Keys written by an executed update are among the keys offered to
`_write_update`. -/
theorem writeUpdate_keys {invoice_id : String} {fields : List (String × Option FieldVal)}
    {w : WriteRec} (hw : w ∈ writeUpdate invoice_id fields) :
    ∀ k ∈ w.fields.map Prod.fst, k ∈ fields.map Prod.fst := by
  unfold writeUpdate at hw
  by_cases he : (fields.filterMap fun kv => kv.2.map fun v => (kv.1, v)).isEmpty
  · rw [if_pos he] at hw; simp at hw
  · rw [if_neg he] at hw
    rcases List.mem_singleton.mp hw with rfl
    intro k hk
    simp only [List.mem_map] at hk ⊢
    rcases hk with ⟨p, hp, rfl⟩
    rcases List.mem_filterMap.mp hp with ⟨kv, hkv, hmap⟩
    rcases Option.map_eq_some'.mp hmap with ⟨v, _, rfl⟩
    exact ⟨kv, hkv, rfl⟩

-- ── C1 ───────────────────────────────────────────────────────────────────────

/-- The spec's Pass-1 criterion read literally: EVERY first-name token
and EVERY last-name token must occur (word-bounded) in the candidate's
normalised name.  Stated from the spec's words, for comparison with the
source's `pass1Q`. -/
def specEveryTokenQ (ft lt : List (List Char)) (inv : Invoice) : Bool :=
  let db := normaliseL inv.resource_name
  (ft.all fun t => searchWB t db) && (lt.all fun t => searchWB t db)

/-- A pending invoice fixture used by the C1 theorems. -/
def c1Inv : Invoice := ⟨"c1", some "John Smith", none, none, none, some "Pending"⟩

/-- C1 counterexample: with first name "john bob" and last name "smith",
the candidate "John Smith" qualifies in the source's Pass 1 (some token
on each side suffices) although NOT every first-name token occurs in its
normalised name, and the matcher returns `Matched` — refuting the
claimed every-token qualification criterion. -/
theorem claim1_counterexample :
    pass1Q (tokeniseL (some "john bob")) (tokeniseL (some "smith")) c1Inv = true ∧
      specEveryTokenQ (tokeniseL (some "john bob")) (tokeniseL (some "smith")) c1Inv = false ∧
      matchInvoice "john bob" "smith" [c1Inv] = (some c1Inv, .matched) := by
  refine ⟨by decide, by decide, by decide⟩

/-- C1 (amended): in Pass 1 a candidate qualifies iff its normalised
resource name is non-empty and AT LEAST ONE first-name token and AT
LEAST ONE last-name token each occur (word-bounded) in it; the matcher
returns `Matched` exactly on a unique qualifier and `Ambiguous` on more
than one, without falling through to Pass 2. -/
theorem claim1_pass1_matching (first last : String) (invoices : List Invoice) :
    (∀ inv, pass1Q (tokeniseL (some first)) (tokeniseL (some last)) inv = true ↔
        ((normaliseL inv.resource_name).isEmpty = false ∧
          anyTokenIn (tokeniseL (some first)) (normaliseL inv.resource_name) = true ∧
          anyTokenIn (tokeniseL (some last)) (normaliseL inv.resource_name) = true)) ∧
    (∀ inv, invoices.filter (pass1Q (tokeniseL (some first)) (tokeniseL (some last))) = [inv] →
        matchInvoice first last invoices = (some inv, .matched)) ∧
    (1 < (invoices.filter (pass1Q (tokeniseL (some first)) (tokeniseL (some last)))).length →
        matchInvoice first last invoices = (none, .ambiguous)) := by
  refine ⟨?_, ?_, ?_⟩
  · intro inv
    simp [pass1Q, Bool.and_eq_true, and_assoc]
  · intro inv h
    simp only [matchInvoice]
    rw [h]
    rfl
  · intro h
    simp only [matchInvoice]
    rw [if_neg (by omega), if_pos h]

/-- Witness for C1 (amended): a unique qualifier is returned as
`Matched`. -/
theorem claim1_pass1_matching_witness :
    matchInvoice "john" "smith" [c1Inv] = (some c1Inv, .matched) :=
  (claim1_pass1_matching "john" "smith" [c1Inv]).2.1 c1Inv (by decide)

-- ── C8 ───────────────────────────────────────────────────────────────────────

/-- C8: unmatched and ambiguous groups produce no write and carry no
invoice identifier; groups skipped by the still-pending guard and groups
rejected by the pay-period check also produce no write. -/
theorem claim8_no_write (first last : String) (yr mo : Nat) (group : List Row)
    (invoices : List Invoice) :
    (∀ iv, matchInvoice first last invoices = (iv, .unmatched) →
        processGroup first last yr mo group invoices =
          .ok (⟨.UNMATCHED, none, none, none, none⟩, [])) ∧
    (∀ iv, matchInvoice first last invoices = (iv, .ambiguous) →
        processGroup first last yr mo group invoices =
          .ok (⟨.AMBIGUOUS, none, none, none, none⟩, [])) ∧
    (∀ inv, matchInvoice first last invoices = (some inv, .matched) →
        statusNorm inv ≠ "pending" →
        processGroup first last yr mo group invoices =
          .ok (⟨.SKIPPED_NOT_PENDING, some inv.invoice_id, none, none, none⟩, [])) ∧
    (∀ inv, matchInvoice first last invoices = (some inv, .matched) →
        statusNorm inv = "pending" → payPeriodMatches inv yr mo = false →
        processGroup first last yr mo group invoices =
          .ok (⟨.PERIOD_MISMATCH, some inv.invoice_id, none, none, none⟩, [])) := by
  refine ⟨?_, ?_, ?_, ?_⟩
  · intro iv h
    unfold processGroup
    rw [h]
    cases iv <;> rfl
  · intro iv h
    unfold processGroup
    rw [h]
    cases iv <;> rfl
  · intro inv h hpend
    rw [processGroup_eq_resolve h, resolveGroup_skipped hpend]
  · intro inv h hpend hper
    rw [processGroup_eq_resolve h, resolveGroup_mismatch hpend hper]

/-- Two same-named pending invoices, the ambiguous fixture for C8. -/
def c8InvA : Invoice := ⟨"a1", some "John Smith", none, none, some 40, some "Pending"⟩

def c8InvB : Invoice := ⟨"a2", some "John Smith", none, none, some 41, some "Pending"⟩

/-- Witness for C8: an ambiguous group writes nothing and names no
invoice. -/
theorem claim8_no_write_witness :
    processGroup "john" "smith" 2025 4 [] [c8InvA, c8InvB] =
      .ok (⟨.AMBIGUOUS, none, none, none, none⟩, []) :=
  (claim8_no_write "john" "smith" 2025 4 [] [c8InvA, c8InvB]).2.1 none (by decide)

-- ── C10 ──────────────────────────────────────────────────────────────────────

/-- C10: when every computed field of the partial update is `None` (a
none-approved group with no division, client-name or project-name
values), `_write_update` filters them all out and returns before
executing anything, so no UPDATE — not even the `excel_updated_at`
timestamp — is issued, although the group still reports the
write-bearing `PENDING` outcome. -/
theorem claim10_all_none_no_write (first last : String) (yr mo : Nat) (group : List Row)
    (invoices : List Invoice) (inv : Invoice)
    (hmatch : matchInvoice first last invoices = (some inv, .matched))
    (hpend : statusNorm inv = "pending") (hper : payPeriodMatches inv yr mo = true)
    (hne : group ≠ []) (hnoappr : hasApproved group = false)
    (hdiv : firstVal group "division" = none)
    (hcli : firstVal group "client name" = none)
    (hproj : firstVal group "project name" = none) :
    processGroup first last yr mo group invoices =
      .ok (⟨.PENDING, some inv.invoice_id, none, none, none⟩, []) := by
  rw [processGroup_eq_resolve hmatch,
    resolveGroup_nonePending hpend hper (allApproved_false_of_none hne hnoappr)
      (by simp [hnoappr]),
    hdiv, hcli, hproj]
  rfl

/-- Fixture group for C10: one pending-status row with no dimension
columns. -/
def c10Group : List Row := [[("approval status", some "pending")]]

/-- Witness for C10 at a concrete group and pool. -/
theorem claim10_all_none_no_write_witness :
    processGroup "john" "smith" 0 0 c10Group [c1Inv] =
      .ok (⟨.PENDING, some "c1", none, none, none⟩, []) :=
  claim10_all_none_no_write "john" "smith" 0 0 c10Group [c1Inv] c1Inv
    (by decide) (by decide) (by decide) (by decide) (by decide) (by decide) (by decide)
    (by decide)

-- ── C6 ───────────────────────────────────────────────────────────────────────

/-- C6: approval aggregation is a three-way case split on the rows'
(stripped, lower-cased) approval cells tested for equality with
"approved": all approved → hours are summed and approved_hours, the new
approval status and the dimension fields are offered to the update,
outcome `MATCHED`; some but not all → approval_status "Need Approval"
plus dimension fields only, no hours key, outcome `NEED_APPROVAL`; none
→ dimension fields only, approval_status untouched, outcome `PENDING`. -/
theorem claim6_approval_aggregation (first last : String) (yr mo : Nat) (group : List Row)
    (invoices : List Invoice) (inv : Invoice)
    (hmatch : matchInvoice first last invoices = (some inv, .matched))
    (hpend : statusNorm inv = "pending") (hper : payPeriodMatches inv yr mo = true) :
    (∀ T, allApproved group = true → totalHours group = .ok T →
        processGroup first last yr mo group invoices =
          .ok (⟨.MATCHED, some inv.invoice_id, some T, some (inv.vendor_hours.getD 0),
                some (if |T - inv.vendor_hours.getD 0| < (1 : ℚ) / 100 then "Complete"
                  else "Need Approval")⟩,
            writeUpdate inv.invoice_id
              [("approved_hours", some (.num T)),
               ("approval_status", some (.str (if |T - inv.vendor_hours.getD 0| < (1 : ℚ) / 100
                  then "Complete" else "Need Approval"))),
               ("division", (firstVal group "division").map .str),
               ("client_name", (firstVal group "client name").map .str),
               ("project_name_excel", (firstVal group "project name").map .str)])) ∧
    (hasApproved group = true → hasNonApproved group = true →
        processGroup first last yr mo group invoices =
          .ok (⟨.NEED_APPROVAL, some inv.invoice_id, none, none, some "Need Approval"⟩,
            writeUpdate inv.invoice_id
              [("approval_status", some (.str "Need Approval")),
               ("division", (firstVal group "division").map .str),
               ("client_name", (firstVal group "client name").map .str),
               ("project_name_excel", (firstVal group "project name").map .str)]) ∧
          ∀ w ∈ writeUpdate inv.invoice_id
              [("approval_status", some (.str "Need Approval")),
               ("division", (firstVal group "division").map .str),
               ("client_name", (firstVal group "client name").map .str),
               ("project_name_excel", (firstVal group "project name").map .str)],
            "approved_hours" ∉ w.fields.map Prod.fst) ∧
    (group ≠ [] → hasApproved group = false →
        processGroup first last yr mo group invoices =
          .ok (⟨.PENDING, some inv.invoice_id, none, none, none⟩,
            writeUpdate inv.invoice_id
              [("division", (firstVal group "division").map .str),
               ("client_name", (firstVal group "client name").map .str),
               ("project_name_excel", (firstVal group "project name").map .str)]) ∧
          ∀ w ∈ writeUpdate inv.invoice_id
              [("division", (firstVal group "division").map .str),
               ("client_name", (firstVal group "client name").map .str),
               ("project_name_excel", (firstVal group "project name").map .str)],
            "approved_hours" ∉ w.fields.map Prod.fst ∧
              "approval_status" ∉ w.fields.map Prod.fst) := by
  refine ⟨?_, ?_, ?_⟩
  · intro T hall htot
    rw [processGroup_eq_resolve hmatch, resolveGroup_allApproved hpend hper hall htot]
  · intro hA hN
    refine ⟨?_, ?_⟩
    · rw [processGroup_eq_resolve hmatch,
        resolveGroup_mixed hpend hper (allApproved_false_of_hasNon hN) hA hN]
    · intro w hw hk
      have h2 := writeUpdate_keys hw _ hk
      simp only [List.map_cons, List.map_nil] at h2
      simp at h2
  · intro hne hnone
    refine ⟨?_, ?_⟩
    · rw [processGroup_eq_resolve hmatch,
        resolveGroup_nonePending hpend hper (allApproved_false_of_none hne hnone)
          (by simp [hnone])]
    · intro w hw
      constructor
      · intro hk
        have h2 := writeUpdate_keys hw _ hk
        simp only [List.map_cons, List.map_nil] at h2
        simp at h2
      · intro hk
        have h2 := writeUpdate_keys hw _ hk
        simp only [List.map_cons, List.map_nil] at h2
        simp at h2

/-- Fixture rows for the C6 witness: one approved and one pending row
with a division value. -/
def c6Mixed : List Row :=
  [[("approval status", some "Approved"), ("hour(s)", some "8")],
   [("approval status", some "pending"), ("division", some "West")]]

/-- Witness for C6 at a concrete mixed group. -/
theorem claim6_approval_aggregation_witness :
    processGroup "john" "smith" 0 0 c6Mixed [c1Inv] =
      .ok (⟨.NEED_APPROVAL, some "c1", none, none, some "Need Approval"⟩,
        writeUpdate "c1"
          [("approval_status", some (.str "Need Approval")),
           ("division", (firstVal c6Mixed "division").map .str),
           ("client_name", (firstVal c6Mixed "client name").map .str),
           ("project_name_excel", (firstVal c6Mixed "project name").map .str)]) :=
  (((claim6_approval_aggregation "john" "smith" 0 0 c6Mixed [c1Inv] c1Inv
      (by decide) (by decide) (by decide)).2.1 (by decide) (by decide)).1)

-- ── C5 ───────────────────────────────────────────────────────────────────────

/-- C5: for an all-approved matched group the hours comparison is
strict: the new status is "Complete" exactly when the absolute
difference between the summed hours and the vendor hours is strictly
below 0.01 (over exact rationals), so a delta of exactly 0.01 yields
"Need Approval". -/
theorem claim5_strict_tolerance (first last : String) (yr mo : Nat) (group : List Row)
    (invoices : List Invoice) (inv : Invoice) (T : ℚ)
    (hmatch : matchInvoice first last invoices = (some inv, .matched))
    (hpend : statusNorm inv = "pending") (hper : payPeriodMatches inv yr mo = true)
    (hall : allApproved group = true) (htot : totalHours group = .ok T) :
    ∃ o ws, processGroup first last yr mo group invoices = .ok (o, ws) ∧
      o.status = .MATCHED ∧
      (o.new_db_status = some "Complete" ↔ |T - inv.vendor_hours.getD 0| < (1 : ℚ) / 100) ∧
      (|T - inv.vendor_hours.getD 0| = (1 : ℚ) / 100 →
        o.new_db_status = some "Need Approval") := by
  rw [processGroup_eq_resolve hmatch, resolveGroup_allApproved hpend hper hall htot]
  refine ⟨_, _, rfl, rfl, ?_, ?_⟩
  · by_cases hc : |T - inv.vendor_hours.getD 0| < (1 : ℚ) / 100
    · rw [if_pos hc]
      exact ⟨fun _ => hc, fun _ => rfl⟩
    · rw [if_neg hc]
      constructor
      · intro h
        exact absurd (Option.some.inj h) (by decide)
      · intro h
        exact absurd h hc
  · intro heq
    have hnc : ¬ |T - inv.vendor_hours.getD 0| < (1 : ℚ) / 100 := by
      rw [heq]
      exact lt_irrefl _
    rw [if_neg hnc]

/-- Fixture for the C5 witness: summed hours 40.01 against vendor hours
40 — a delta of exactly 0.01. -/
def c5Group : List Row := [[("approval status", some "Approved"), ("hour(s)", some "40.01")]]

def c5Inv : Invoice := ⟨"c5", some "John Smith", none, none, some 40, some "Pending"⟩

/-- Concrete evaluation of the hours sum for the C5 fixture (the
rational operations themselves are irreducible, so the sum is first
exposed by reduction and then evaluated). -/
theorem c5_total : totalHours c5Group = .ok ((4001 : ℚ) / 100) := by
  have h1 : totalHours c5Group =
      .ok (0 + 1 * ((((40 : ℕ) : ℚ) * 10 ^ (2 : ℕ) + ((1 : ℕ) : ℚ)) / 10 ^ (2 : ℕ))) := rfl
  rw [h1]
  norm_num

/-- Witness for C5: at a delta of exactly 0.01 the status is
"Need Approval". -/
theorem claim5_strict_tolerance_witness :
    ∃ o ws, processGroup "john" "smith" 0 0 c5Group [c5Inv] = .ok (o, ws) ∧
      o.status = .MATCHED ∧
      (o.new_db_status = some "Complete" ↔
        |(4001 : ℚ) / 100 - c5Inv.vendor_hours.getD 0| < (1 : ℚ) / 100) ∧
      (|(4001 : ℚ) / 100 - c5Inv.vendor_hours.getD 0| = (1 : ℚ) / 100 →
        o.new_db_status = some "Need Approval") :=
  claim5_strict_tolerance "john" "smith" 0 0 c5Group [c5Inv] c5Inv ((4001 : ℚ) / 100)
    (by decide) (by decide) (by decide) (by decide) c5_total

-- ── C3 ───────────────────────────────────────────────────────────────────────

theorem resolveGroup_not_mismatch {inv : Invoice} {yr mo : Nat} {group : List Row}
    (hpend : statusNorm inv = "pending") (hper : payPeriodMatches inv yr mo = true) :
    ∀ o ws, resolveGroup inv yr mo group = .ok (o, ws) → o.status ≠ .PERIOD_MISMATCH := by
  intro o ws h
  unfold resolveGroup at h
  rw [if_neg (by simp [hpend]), if_neg (by simp [hper])] at h
  by_cases hall : allApproved group = true
  · rw [if_pos hall] at h
    cases htot : totalHours group with
    | error e => rw [htot] at h; simp at h
    | ok T =>
        rw [htot] at h
        simp only [Except.ok.injEq, Prod.mk.injEq] at h
        obtain ⟨h1, -⟩ := h
        rw [← h1]
        simp
  · rw [if_neg hall] at h
    by_cases hmix : (hasApproved group && hasNonApproved group) = true
    · rw [if_pos hmix] at h
      simp only [Except.ok.injEq, Prod.mk.injEq] at h
      obtain ⟨h1, -⟩ := h
      rw [← h1]
      simp
    · rw [if_neg hmix] at h
      simp only [Except.ok.injEq, Prod.mk.injEq] at h
      obtain ⟨h1, -⟩ := h
      rw [← h1]
      simp

/-- C3: for a still-pending matched group with non-zero year, the
outcome is `PERIOD_MISMATCH` (with no write) exactly when neither stored
invoice date falls — via the program's date parsing — in the group's
(year, month); with the zero-sentinel year the check is skipped and can
never block the group. -/
theorem claim3_period_gate (first last : String) (yr mo : Nat) (group : List Row)
    (invoices : List Invoice) (inv : Invoice)
    (hmatch : matchInvoice first last invoices = (some inv, .matched))
    (hpend : statusNorm inv = "pending") :
    (yr ≠ 0 →
      ((dateFallsIn inv.start_date yr mo = false ∧ dateFallsIn inv.end_date yr mo = false) →
        processGroup first last yr mo group invoices =
          .ok (⟨.PERIOD_MISMATCH, some inv.invoice_id, none, none, none⟩, [])) ∧
      ((dateFallsIn inv.start_date yr mo = true ∨ dateFallsIn inv.end_date yr mo = true) →
        ∀ o ws, processGroup first last yr mo group invoices = .ok (o, ws) →
          o.status ≠ .PERIOD_MISMATCH)) ∧
    (yr = 0 → payPeriodMatches inv yr mo = true ∧
      ∀ o ws, processGroup first last yr mo group invoices = .ok (o, ws) →
        o.status ≠ .PERIOD_MISMATCH) := by
  constructor
  · intro hyr
    constructor
    · intro ⟨hs, he⟩
      have hper : payPeriodMatches inv yr mo = false := by
        unfold payPeriodMatches
        rw [if_neg hyr, hs, he]
        rfl
      rw [processGroup_eq_resolve hmatch, resolveGroup_mismatch hpend hper]
    · intro hfall o ws h
      have hper : payPeriodMatches inv yr mo = true := by
        unfold payPeriodMatches
        rw [if_neg hyr]
        rcases hfall with hf | hf <;> simp [hf]
      rw [processGroup_eq_resolve hmatch] at h
      exact resolveGroup_not_mismatch hpend hper o ws h
  · intro hyr
    have hper : payPeriodMatches inv yr mo = true := by
      unfold payPeriodMatches
      rw [if_pos hyr]
    refine ⟨hper, ?_⟩
    intro o ws h
    rw [processGroup_eq_resolve hmatch] at h
    exact resolveGroup_not_mismatch hpend hper o ws h

/-- Fixture invoice for the C3 witness: dated inside March 2024. -/
def c3Inv : Invoice :=
  ⟨"c3", some "John Smith", some "15/03/2024", some "31/03/2024", some 40, some "Pending"⟩

/-- Witness for C3: a group dated April 2024 against a March 2024
invoice yields `PERIOD_MISMATCH` and no write. -/
theorem claim3_period_gate_witness :
    processGroup "john" "smith" 2024 4 [] [c3Inv] =
      .ok (⟨.PERIOD_MISMATCH, some "c3", none, none, none⟩, []) :=
  ((claim3_period_gate "john" "smith" 2024 4 [] [c3Inv] c3Inv (by decide) (by decide)).1
    (by decide)).1 ⟨by decide, by decide⟩

-- ── C4 ───────────────────────────────────────────────────────────────────────

/-- Modelled from the spec: the month-first date variant (`%m/%d/%Y`)
that §4.2 says must also be attempted.  Same strptime conventions as the
source's day-first formats, with month and day swapped. -/
def matchMDYRaw (sep : Char) (cs : List Char) : Option (Nat × Nat × Nat) :=
  (monthCands cs).findSome? fun mc =>
    match mc.2 with
    | s1 :: r2 =>
        if s1 = sep then
          (dayCands r2).findSome? fun dc =>
            match dc.2 with
            | s2 :: r4 =>
                if s2 = sep then (year4 r4).map fun y => (mc.1, dc.1, y) else none
            | [] => none
        else none
    | [] => none

/-- Modelled from the spec: parse a string under the month-first format
`%m/%d/%Y`. -/
def specMonthFirstParse (s : String) : Option PDate :=
  let cs := (pyStripL s.data).take 10
  match matchMDYRaw '/' cs with
  | some (m, d, y) => if validDate y m d then some ⟨y, m, d⟩ else none
  | none => none

def c4Row : Row := [("from time", some "03/25/2024")]

/-- C4 counterexample: the value "03/25/2024" is a valid month-first
date (March 25, 2024) yet the extractor returns the absent value,
because only the day-first formats are ever attempted — refuting the
claim that month-first variants are also attempted. -/
theorem claim4_counterexample :
    extractMonthYear c4Row = none ∧
      parseDate "03/25/2024" = none ∧
      specMonthFirstParse "03/25/2024" = some ⟨2024, 3, 25⟩ := by
  refine ⟨by decide, by decide, by decide⟩

/-- C4 (amended): the extractor tries the candidate columns in the
fixed order and, for each non-empty value, attempts only the two
day-first formats of `_parse_date`; it returns the absent value exactly
when no column's value parses, and a returned (year, month) always comes
from some column's parsed date.  It is a total function: no exception
propagates. -/
theorem claim4_date_extraction (row : Row) :
    (extractMonthYear row = none ↔ ∀ c ∈ dateCols, colMonthYear row c = none) ∧
    (∀ y m, extractMonthYear row = some (y, m) →
      ∃ c ∈ dateCols, getCol row c ≠ "" ∧ ∃ p, parseDate (getCol row c) = some p ∧
        p.year = y ∧ p.month = m) := by
  constructor
  · exact List.findSome?_eq_none_iff
  · intro y m h
    rcases List.exists_of_findSome?_eq_some h with ⟨c, hc, hcol⟩
    unfold colMonthYear at hcol
    by_cases hv : getCol row c = ""
    · rw [if_pos hv] at hcol
      cases hcol
    · rw [if_neg hv] at hcol
      rcases Option.map_eq_some'.mp hcol with ⟨p, hp, hpe⟩
      obtain ⟨hy, hm⟩ := Prod.mk.inj hpe
      exact ⟨c, hc, hv, p, hp, hy, hm⟩

/-- Witness for C4: an ISO-formatted value parses under neither
day-first format, so the extractor returns the absent value. -/
theorem claim4_date_extraction_witness :
    extractMonthYear [("date", some "2024-03-15")] = none :=
  (claim4_date_extraction [("date", some "2024-03-15")]).1.mpr (by decide)

-- ── C2 ───────────────────────────────────────────────────────────────────────

/-- Fixture pool for C2: two distinct pending invoices. -/
def c2Pool : List Invoice :=
  [⟨"inv1", some "Alice Wong", none, none, some 40, some "Pending"⟩,
   ⟨"inv2", some "Bob Tan", none, none, some 40, some "Pending"⟩]

/-- A group whose approved row carries a malformed hours cell: its
conversion raises. -/
def c2Bad : GroupEntry :=
  ⟨"alice", "wong", 0, 0, [[("approval status", some "Approved"), ("hour(s)", some "abc")]]⟩

/-- A well-formed group that resolves cleanly on its own. -/
def c2Good : GroupEntry :=
  ⟨"bob", "tan", 0, 0, [[("approval status", some "pending")]]⟩

/-- C2 counterexample: one group's failure (a malformed hours cell)
turns the whole run into an error and the remaining group — which
processes fine on its own — is never reached, refuting the claim that a
single group's failure is caught at the group boundary. -/
theorem claim2_counterexample :
    runGroups c2Pool [c2Bad, c2Good] = .error "could not convert string to float: abc" ∧
      processGroup "bob" "tan" 0 0 c2Good.rows c2Pool =
        .ok (⟨.PENDING, some "inv2", none, none, none⟩, []) := by
  exact ⟨rfl, rfl⟩

/-- C2 (amended): a failure raised while processing a single group
propagates out of the batch loop — the run becomes an error response
carrying that group's exception, and the remaining groups' outcomes are
not produced. -/
theorem claim2_group_failure_aborts_batch (invoices : List Invoice)
    (gs1 gs2 : List GroupEntry) (g : GroupEntry) (e : String)
    (h1 : ∀ g' ∈ gs1, ∃ r, processEntry invoices g' = .ok r)
    (h2 : processEntry invoices g = .error e) :
    runGroups invoices (gs1 ++ g :: gs2) = .error e := by
  induction gs1 with
  | nil =>
      simp only [List.nil_append]
      unfold runGroups
      rw [h2]
      rfl
  | cons a as ih =>
      obtain ⟨r, hr⟩ := h1 a (List.mem_cons_self a as)
      obtain ⟨o, ws⟩ := r
      have ih2 := ih fun g' hg' => h1 g' (List.mem_cons_of_mem a hg')
      simp only [List.cons_append]
      unfold runGroups
      rw [hr]
      show (runGroups invoices (as ++ g :: gs2)).bind _ = _
      rw [ih2]
      rfl

/-- Witness for C2 (amended): with the failing group second, the run
still becomes an error even though the first group succeeded. -/
theorem claim2_group_failure_aborts_batch_witness :
    runGroups c2Pool [c2Good, c2Bad] = .error "could not convert string to float: abc" :=
  claim2_group_failure_aborts_batch c2Pool [c2Good] [] c2Bad
    "could not convert string to float: abc"
    (by
      intro g' hg'
      rw [List.mem_singleton] at hg'
      subst hg'
      exact ⟨_, rfl⟩)
    rfl

end SyncExcel
